import Mathlib

/-!
Verification development for the Quizzmaster repository.

The frontend quiz-taking flow (TakeQuiz.tsx), the client auth context
(AuthContext.tsx), the route table (App.tsx) and the backend quiz
controller (quiz.controller.ts) are embedded shallowly below; each
definition mirrors one function or state fragment of the source.
-/

/-- One entry of the answers array of TakeQuiz: question id and the
selected option, with -1 meaning not answered. -/
structure Answer where
  question_id : Nat
  selected_option : Int
deriving DecidableEq

/-- The body sent to submitQuiz by finishQuiz. -/
structure SubmitPayload where
  quiz_id : Nat
  answers : List Answer
  time_taken : String
deriving DecidableEq

/-- The React state of the TakeQuiz component, after the quiz and its
questions have been fetched.  A pending submitQuiz call is recorded in
the pending field together with its payload, and a completed
navigate call in the navigated field. -/
structure TQState where
  quizId : Nat
  timeLimit : Nat
  questions : List Nat
  currentQuestionIndex : Nat
  answers : List Answer
  selectedOption : Option Int
  timeLeft : Int
  quizStarted : Bool
  quizFinished : Bool
  showConfirmModal : Bool
  error : Option String
  startTime : Option Nat
  pending : Option SubmitPayload
  navigated : Option String
deriving DecidableEq

/-- State after fetchQuizData succeeds: timeLeft is timeLimit minutes in
seconds and every question starts unanswered (selected_option -1). -/
def initState (quizId timeLimit : Nat) (questionIds : List Nat) : TQState :=
  { quizId := quizId
    timeLimit := timeLimit
    questions := questionIds
    currentQuestionIndex := 0
    answers := questionIds.map (fun q => { question_id := q, selected_option := -1 })
    selectedOption := none
    timeLeft := (timeLimit : Int) * 60
    quizStarted := false
    quizFinished := false
    showConfirmModal := false
    error := none
    startTime := none
    pending := none
    navigated := none }

/-- startQuiz: mark the quiz started and record the start time. -/
def startQuiz (now : Nat) (s : TQState) : TQState :=
  { s with quizStarted := true, startTime := some now }

/-- Write a selected option into the answers array at the given index
(the mutation updatedAnswers[i].selected_option = optionId). -/
def setSelected : List Answer → Nat → Int → List Answer
  | [], _, _ => []
  | a :: rest, 0, opt => { a with selected_option := opt } :: rest
  | a :: rest, Nat.succ n, opt => a :: setSelected rest n opt

/-- handleOptionSelect: set selectedOption and update the answers array
at the current question index. -/
def handleOptionSelect (optionId : Int) (s : TQState) : TQState :=
  { s with selectedOption := some optionId,
           answers := setSelected s.answers s.currentQuestionIndex optionId }

/-- The selectedOption shown for a stored answer: null when -1. -/
def selectedOptionOf (a : Answer) : Option Int :=
  if a.selected_option = -1 then none else some a.selected_option

/-- Default used to model the JS array access answers[i]; never consulted
in reachable states, where the index stays in bounds. -/
def defAnswer : Answer := { question_id := 0, selected_option := -1 }

/-- goToNextQuestion: advance while below the last question, otherwise
open the confirmation modal. -/
def goToNextQuestion (s : TQState) : TQState :=
  if s.currentQuestionIndex < s.questions.length - 1 then
    { s with currentQuestionIndex := s.currentQuestionIndex + 1,
             selectedOption :=
               selectedOptionOf (s.answers.getD (s.currentQuestionIndex + 1) defAnswer) }
  else
    { s with showConfirmModal := true }

/-- goToPreviousQuestion: go back while above the first question. -/
def goToPreviousQuestion (s : TQState) : TQState :=
  if 0 < s.currentQuestionIndex then
    { s with currentQuestionIndex := s.currentQuestionIndex - 1,
             selectedOption :=
               selectedOptionOf (s.answers.getD (s.currentQuestionIndex - 1) defAnswer) }
  else s

/-- toString padded on the left with zeros to width 2. -/
def padZero2 (n : Nat) : String :=
  if n < 10 then "0" ++ toString n else toString n

/-- Format a number of seconds as zero-padded HH:MM:SS. -/
def formatHHMMSS (t : Nat) : String :=
  padZero2 (t / 3600) ++ ":" ++ padZero2 (t % 3600 / 60) ++ ":" ++ padZero2 (t % 60)

/-- Elapsed whole seconds between the recorded start time and now,
0 when no start time was recorded. -/
def timeTakenSeconds (startTime : Option Nat) (now : Nat) : Nat :=
  match startTime with
  | some st => (now - st) / 1000
  | none => 0

/-- The payload finishQuiz passes to submitQuiz: the quiz id, the
answers with selected_option different from -1, and the formatted
elapsed time. -/
def finishPayload (s : TQState) (now : Nat) : SubmitPayload :=
  { quiz_id := s.quizId
    answers := s.answers.filter (fun a => a.selected_option != -1)
    time_taken := formatHHMMSS (timeTakenSeconds s.startTime now) }

/-- The synchronous part of finishQuiz: set quizFinished, stop the timer
and start the submitQuiz call with its payload. -/
def finishBegin (now : Nat) (s : TQState) : TQState :=
  { s with quizFinished := true, pending := some (finishPayload s now) }

/-- Error message set when submitQuiz fails. -/
def submitErrMsg : String := "Failed to submit quiz. Please try again."

/-- Resolution of the submitQuiz call: on success navigate to the
results page of the returned score id; on failure set the error
message and reset quizFinished to false. -/
def finishResolve (ok : Bool) (scoreId : Nat) (s : TQState) : TQState :=
  if ok then
    { s with pending := none, navigated := some ("/results/" ++ toString scoreId) }
  else
    { s with pending := none, error := some submitErrMsg, quizFinished := false }

/-- One timer tick: at one second or less, set timeLeft to 0 and invoke
finishQuiz; otherwise decrement timeLeft. -/
def tick (now : Nat) (s : TQState) : TQState :=
  if s.timeLeft ≤ 1 then finishBegin now { s with timeLeft := 0 }
  else { s with timeLeft := s.timeLeft - 1 }

/-- The transitions of the TakeQuiz component.  Guards reflect what the
component renders: before quizStarted only the Start button exists; the
question screen with its buttons is rendered whenever quizStarted; the
interval only runs while started and not finished; a submission can
resolve only while one is pending; nothing happens after navigation
unmounts the component. -/
inductive Step : TQState → TQState → Prop
  | start {s : TQState} (now : Nat) (hs : s.quizStarted = false)
      (hn : s.navigated = none) : Step s (startQuiz now s)
  | select {s : TQState} (optionId : Int) (hs : s.quizStarted = true)
      (hn : s.navigated = none) : Step s (handleOptionSelect optionId s)
  | next {s : TQState} (hs : s.quizStarted = true)
      (hn : s.navigated = none) : Step s (goToNextQuestion s)
  | prev {s : TQState} (hs : s.quizStarted = true)
      (hn : s.navigated = none) : Step s (goToPreviousQuestion s)
  | tickSec {s : TQState} (now : Nat) (hs : s.quizStarted = true)
      (hf : s.quizFinished = false) (hn : s.navigated = none) : Step s (tick now s)
  | finish {s : TQState} (now : Nat) (hs : s.quizStarted = true)
      (hp : s.pending = none) (hn : s.navigated = none) : Step s (finishBegin now s)
  | resolve {s : TQState} (ok : Bool) (scoreId : Nat) (p : SubmitPayload)
      (hp : s.pending = some p) (hn : s.navigated = none) :
      Step s (finishResolve ok scoreId s)

/-- States the component can reach from a freshly loaded quiz. -/
def ReachableTQ (quizId timeLimit : Nat) (questionIds : List Nat) (s : TQState) : Prop :=
  Relation.ReflTransGen Step (initState quizId timeLimit questionIds) s

/-- Invariant of the TakeQuiz state machine relative to the loaded
question list. -/
def TQInv (qs : List Nat) (s : TQState) : Prop :=
  s.questions = qs ∧
  (qs ≠ [] → s.currentQuestionIndex < qs.length) ∧
  0 ≤ s.timeLeft ∧
  (s.pending ≠ none → s.quizFinished = true) ∧
  (s.quizFinished = true → s.quizStarted = true)

/-- Role of a user in AuthContext.tsx. -/
inductive Role
  | admin
  | user
deriving DecidableEq

/-- The user object held by the auth context. -/
structure AuthUser where
  id : Nat
  username : String
  role : Role
deriving DecidableEq

/-- The auth context state: user, token and error. -/
structure AuthState where
  user : Option AuthUser
  token : Option String
  error : Option String
deriving DecidableEq

/-- isAdmin from AuthContext.tsx: the optional-chained comparison of
the user role against the admin role. -/
def isAdmin (a : AuthState) : Bool :=
  match a.user with
  | some u => u.role == Role.admin
  | none => false

/-- localStorage modelled as a key-value association list. -/
def getItem (k : String) (st : List (String × String)) : Option String :=
  (st.find? (fun e => e.1 == k)).map (fun e => e.2)

/-- localStorage.setItem: replace any binding of the key. -/
def setItem (k v : String) (st : List (String × String)) : List (String × String) :=
  (k, v) :: st.filter (fun e => e.1 != k)

/-- localStorage.removeItem. -/
def removeItem (k : String) (st : List (String × String)) : List (String × String) :=
  st.filter (fun e => e.1 != k)

/-- Browser-side state visible to the auth context: localStorage plus
the context state. -/
structure ClientState where
  storage : List (String × String)
  auth : AuthState
deriving DecidableEq

/-- The success path of login: store the returned token under the key
token, set the token and user in context, clear the error. -/
def loginSuccess (tok : String) (u : AuthUser) (c : ClientState) : ClientState :=
  { storage := setItem "token" tok c.storage,
    auth := { user := some u, token := some tok, error := none } }

/-- logout: remove the stored token and null out token and user. -/
def logout (c : ClientState) : ClientState :=
  { storage := removeItem "token" c.storage,
    auth := { c.auth with user := none, token := none } }

/-- The guard wrapping a route element in App.tsx. -/
inductive RouteGuard
  | unguarded
  | userOnly
  | adminOnly
deriving DecidableEq

/-- One route of the App router. -/
structure RouteEntry where
  path : String
  guard : RouteGuard
deriving DecidableEq

/-- The route table of App.tsx, in source order. -/
def appRoutes : List RouteEntry :=
  [⟨"/login", RouteGuard.unguarded⟩,
   ⟨"/register", RouteGuard.unguarded⟩,
   ⟨"/dashboard", RouteGuard.userOnly⟩,
   ⟨"/profile", RouteGuard.userOnly⟩,
   ⟨"/quizzes", RouteGuard.userOnly⟩,
   ⟨"/quiz/:id", RouteGuard.userOnly⟩,
   ⟨"/results/:id", RouteGuard.userOnly⟩,
   ⟨"/admin", RouteGuard.adminOnly⟩,
   ⟨"/admin/users", RouteGuard.adminOnly⟩,
   ⟨"/admin/subjects", RouteGuard.adminOnly⟩,
   ⟨"/admin/chapters", RouteGuard.adminOnly⟩,
   ⟨"/admin/quizzes", RouteGuard.adminOnly⟩,
   ⟨"/admin/quizzes/:id/questions", RouteGuard.adminOnly⟩,
   ⟨"/", RouteGuard.unguarded⟩]

/-- Whether a route path lies under the /admin path segment. -/
def pathUnderAdmin (p : String) : Bool :=
  p.data.take 6 == "/admin".data

/-- A chapter row of the relational schema. -/
structure ChapterRec where
  id : Nat
  name : String
deriving DecidableEq

/-- A quiz row of the relational schema, with the columns the quiz
controller touches. -/
structure QuizRec where
  id : Nat
  name : String
  remarks : String
  chapter_id : Nat
  date_of_quiz : Nat
  time_duration : String
deriving DecidableEq

/-- The tables the quiz controller reads and writes. -/
structure QuizDB where
  chapters : List ChapterRec
  quizzes : List QuizRec
  nextQuizId : Nat
deriving DecidableEq

/-- Chapter.findByPk. -/
def findChapterByPk (db : QuizDB) (cid : Nat) : Option ChapterRec :=
  db.chapters.find? (fun c => c.id == cid)

/-- Quiz.findByPk. -/
def findQuizByPk (db : QuizDB) (qid : Nat) : Option QuizRec :=
  db.quizzes.find? (fun q => q.id == qid)

/-- Quiz.findOne on name and chapter_id. -/
def findQuizByTitleInChapter (db : QuizDB) (title : String) (cid : Nat) : Option QuizRec :=
  db.quizzes.find? (fun q => q.name == title && q.chapter_id == cid)

/-- The JS expression v or-else d on a string field: absent and the
empty string are falsy. -/
def jsOrStr : Option String → String → String
  | none, d => d
  | some s, d => if s = "" then d else s

/-- The JS expression v or-else d on a numeric field: absent and 0 are
falsy. -/
def jsOrNat : Option Nat → Nat → Nat
  | none, d => d
  | some n, d => if n = 0 then d else n

/-- Truthiness of an optional string request field. -/
def truthyStr : Option String → Bool
  | none => false
  | some s => s != ""

/-- Truthiness of an optional numeric request field. -/
def truthyNat : Option Nat → Bool
  | none => false
  | some n => n != 0

/-- Status and message of a controller response. -/
structure ApiResponse where
  status : Nat
  message : String
deriving DecidableEq

/-- Request body of createQuiz. -/
structure CreateQuizBody where
  title : String
  description : String
  chapterId : Nat
  timeLimit : Option String
deriving DecidableEq

/-- createQuiz from quiz.controller.ts: 404 when the chapter is
missing, 400 when a quiz of that title exists in the chapter, else
insert the new row (time_duration falling back to 00:30). -/
def createQuiz (now : Nat) (db : QuizDB) (b : CreateQuizBody) : ApiResponse × QuizDB :=
  match findChapterByPk db b.chapterId with
  | none => (⟨404, "Chapter not found"⟩, db)
  | some _ =>
    match findQuizByTitleInChapter db b.title b.chapterId with
    | some _ => (⟨400, "Quiz already exists in this chapter"⟩, db)
    | none =>
      let q : QuizRec :=
        { id := db.nextQuizId, name := b.title, remarks := b.description,
          chapter_id := b.chapterId, date_of_quiz := now,
          time_duration := jsOrStr b.timeLimit "00:30" }
      (⟨201, "Quiz created successfully"⟩,
       { db with quizzes := db.quizzes ++ [q], nextQuizId := db.nextQuizId + 1 })

/-- Request body of updateQuiz. -/
structure UpdateQuizBody where
  title : Option String
  description : Option String
  chapterId : Option Nat
  timeLimit : Option String
deriving DecidableEq

/-- The field merge quiz.update performs: each falsy body field keeps
the stored column value. -/
def updateMergeQuiz (q : QuizRec) (b : UpdateQuizBody) : QuizRec :=
  { q with name := jsOrStr b.title q.name,
           remarks := jsOrStr b.description q.remarks,
           chapter_id := jsOrNat b.chapterId q.chapter_id,
           time_duration := jsOrStr b.timeLimit q.time_duration }

/-- The condition guarding the chapter existence check in updateQuiz:
chapterId truthy and different from the stored chapter_id. -/
def wantsNewChapter (b : UpdateQuizBody) (q : QuizRec) : Bool :=
  truthyNat b.chapterId && (b.chapterId.getD 0 != q.chapter_id)

/-- updateQuiz from quiz.controller.ts. -/
def updateQuiz (db : QuizDB) (qid : Nat) (b : UpdateQuizBody) : ApiResponse × QuizDB :=
  match findQuizByPk db qid with
  | none => (⟨404, "Quiz not found"⟩, db)
  | some quiz =>
    if wantsNewChapter b quiz = true ∧ findChapterByPk db (b.chapterId.getD 0) = none then
      (⟨404, "Chapter not found"⟩, db)
    else
      (⟨200, "Quiz updated successfully"⟩,
       { db with quizzes :=
           db.quizzes.map (fun q => if q.id == qid then updateMergeQuiz q b else q) })

/-- deleteQuiz from quiz.controller.ts. -/
def deleteQuiz (db : QuizDB) (qid : Nat) : ApiResponse × QuizDB :=
  match findQuizByPk db qid with
  | none => (⟨404, "Quiz not found"⟩, db)
  | some _ =>
    (⟨200, "Quiz deleted successfully"⟩,
     { db with quizzes := db.quizzes.eraseP (fun q => q.id == qid) })

theorem init_inv (quizId timeLimit : Nat) (qs : List Nat) :
    TQInv qs (initState quizId timeLimit qs) := by
  refine ⟨rfl, ?_, ?_, ?_, ?_⟩
  · intro h
    simpa [initState] using List.length_pos.mpr h
  · show (0 : Int) ≤ (timeLimit : Int) * 60
    positivity
  · intro h
    simp [initState] at h
  · intro h
    simp [initState] at h

theorem step_inv {qs : List Nat} {s s' : TQState} (h : Step s s') (hI : TQInv qs s) :
    TQInv qs s' := by
  obtain ⟨h1, h2, h3, h4, h5⟩ := hI
  cases h with
  | start now hs hn =>
      exact ⟨h1, h2, h3, fun hp => h4 hp, fun _ => rfl⟩
  | select optionId hs hn =>
      exact ⟨h1, h2, h3, h4, h5⟩
  | next hs hn =>
      unfold goToNextQuestion
      split
      · next hlt =>
          refine ⟨h1, ?_, h3, h4, h5⟩
          intro _
          show s.currentQuestionIndex + 1 < qs.length
          rw [h1] at hlt
          omega
      · exact ⟨h1, h2, h3, h4, h5⟩
  | prev hs hn =>
      unfold goToPreviousQuestion
      split
      · next hpos =>
          refine ⟨h1, ?_, h3, h4, h5⟩
          intro hne
          have := h2 hne
          show s.currentQuestionIndex - 1 < qs.length
          omega
      · exact ⟨h1, h2, h3, h4, h5⟩
  | tickSec now hs hf hn =>
      unfold tick
      split
      · next hle =>
          exact ⟨h1, h2, le_refl 0, fun _ => rfl, fun _ => hs⟩
      · next hgt =>
          refine ⟨h1, h2, ?_, h4, h5⟩
          show (0 : Int) ≤ s.timeLeft - 1
          omega
  | finish now hs hp hn =>
      exact ⟨h1, h2, h3, fun _ => rfl, fun _ => hs⟩
  | resolve ok scoreId p hp hn =>
      unfold finishResolve
      cases ok with
      | true =>
          refine ⟨h1, h2, h3, ?_, h5⟩
          intro hcon
          exact absurd rfl hcon
      | false =>
          refine ⟨h1, h2, h3, ?_, ?_⟩
          · intro hcon
            exact absurd rfl hcon
          · intro hcon
            exact absurd hcon (by simp)

theorem reachable_inv {quizId timeLimit : Nat} {qs : List Nat} {s : TQState}
    (h : ReachableTQ quizId timeLimit qs s) : TQInv qs s := by
  induction h with
  | refl => exact init_inv quizId timeLimit qs
  | tail hr hst ih => exact step_inv hst ih

theorem find?_filter_ne (k : String) (st : List (String × String)) :
    (st.filter (fun e => e.1 != k)).find? (fun e => e.1 == k) = none := by
  induction st with
  | nil => rfl
  | cons a t ih =>
      rw [List.filter_cons]
      by_cases h : a.1 = k
      · rw [if_neg (by simp [h])]
        exact ih
      · rw [if_pos (by simpa using h), List.find?_cons_of_neg _ (by simpa using h)]
        exact ih

theorem find?_map_update {α : Type} (key : α → Nat) (qid : Nat) (g : α → α)
    (hg : ∀ q, key (g q) = key q) :
    ∀ (l : List α) (x : α), l.find? (fun q => key q == qid) = some x →
      (l.map (fun q => if key q == qid then g q else q)).find? (fun q => key q == qid) =
        some (g x) := by
  intro l
  induction l with
  | nil =>
      intro x hx
      simp [List.find?] at hx
  | cons a t ih =>
      intro x hx
      simp only [List.map_cons]
      by_cases h : (key a == qid) = true
      · rw [List.find?_cons, h] at hx
        have hx2 : some a = some x := hx
        obtain rfl : a = x := by simpa using hx2
        rw [if_pos h, List.find?_cons]
        have hga : (key (g a) == qid) = true := by rw [hg]; exact h
        rw [hga]
      · have hb : (key a == qid) = false := by simpa using h
        rw [List.find?_cons, hb] at hx
        have hx2 : List.find? (fun q => key q == qid) t = some x := hx
        rw [if_neg h, List.find?_cons, hb]
        exact ih x hx2

/-- C1: refuted as stated.  The finished state can be left: after a
failing submitQuiz call, finishQuiz resets quizFinished to false.  The
trace start, finishQuiz, failure resolution reaches a finished state and
then steps out of it. -/
theorem C1_quiz_flow_cex :
    ReachableTQ 1 1 [1] (finishBegin 0 (startQuiz 0 (initState 1 1 [1]))) ∧
    Step (finishBegin 0 (startQuiz 0 (initState 1 1 [1])))
      (finishResolve false 0 (finishBegin 0 (startQuiz 0 (initState 1 1 [1])))) ∧
    (finishBegin 0 (startQuiz 0 (initState 1 1 [1]))).quizFinished = true ∧
    (finishResolve false 0 (finishBegin 0 (startQuiz 0 (initState 1 1 [1])))).quizFinished
      = false := by
  refine ⟨?_, ?_, rfl, rfl⟩
  · exact Relation.ReflTransGen.tail
      (Relation.ReflTransGen.tail Relation.ReflTransGen.refl (Step.start 0 rfl rfl))
      (Step.finish 0 rfl rfl rfl)
  · exact Step.resolve false 0 (finishPayload (startQuiz 0 (initState 1 1 [1])) 0) rfl rfl

/-- C1 (amended): the TakeQuiz flow is the state machine not-started,
in-progress, finished: from a not-started state the only transition is
startQuiz into in-progress; from in-progress the phase changes only to
finished, and only with a submission started (finishQuiz, by button or
timer expiry); and no transition leaves the finished state except the
resolution of a failed submitQuiz call, which returns the flow to
in-progress with the error message set and the submission cleared. -/
theorem C1_quiz_flow_amended (quizId timeLimit : Nat) (qs : List Nat) (s s' : TQState)
    (hr : ReachableTQ quizId timeLimit qs s) (hst : Step s s') :
    (s.quizStarted = false →
       (∃ now, s' = startQuiz now s) ∧ s'.quizStarted = true ∧ s'.quizFinished = false) ∧
    (s.quizStarted = true → s.quizFinished = false →
       (s'.quizStarted = true ∧ s'.quizFinished = false) ∨
       (s'.quizFinished = true ∧ s'.pending ≠ none)) ∧
    (s.quizFinished = true →
       s'.quizFinished = true ∨
       (s'.quizFinished = false ∧ s'.quizStarted = true ∧
        s'.error = some submitErrMsg ∧ s'.pending = none)) := by
  obtain ⟨hq, hidx, htl, hpf, hfs⟩ := reachable_inv hr
  cases hst with
  | start now hs hn =>
      refine ⟨fun _ => ⟨⟨now, rfl⟩, rfl, ?_⟩,
              fun h => absurd hs (by simp [h]),
              fun h => absurd hs (by simp [hfs h])⟩
      show s.quizFinished = false
      cases hfin : s.quizFinished with
      | false => rfl
      | true => exact absurd (hfs hfin) (by simp [hs])
  | select optionId hs hn =>
      exact ⟨fun h => absurd hs (by simp [h]),
             fun h hf => Or.inl ⟨h, hf⟩, fun h => Or.inl h⟩
  | next hs hn =>
      unfold goToNextQuestion
      split <;>
        exact ⟨fun h => absurd hs (by simp [h]),
               fun h hf => Or.inl ⟨h, hf⟩, fun h => Or.inl h⟩
  | prev hs hn =>
      unfold goToPreviousQuestion
      split <;>
        exact ⟨fun h => absurd hs (by simp [h]),
               fun h hf => Or.inl ⟨h, hf⟩, fun h => Or.inl h⟩
  | tickSec now hs hf hn =>
      unfold tick
      split
      · exact ⟨fun h => absurd hs (by simp [h]),
               fun _ _ => Or.inr ⟨rfl, by simp [finishBegin]⟩,
               fun h => absurd h (by simp [hf])⟩
      · exact ⟨fun h => absurd hs (by simp [h]),
               fun h hf2 => Or.inl ⟨h, hf2⟩, fun h => Or.inl h⟩
  | finish now hs hp hn =>
      exact ⟨fun h => absurd hs (by simp [h]),
             fun _ _ => Or.inr ⟨rfl, by simp [finishBegin]⟩,
             fun _ => Or.inl rfl⟩
  | resolve ok scoreId p hp hn =>
      have hfin : s.quizFinished = true := hpf (by simp [hp])
      have hstart : s.quizStarted = true := hfs hfin
      cases ok with
      | true =>
          exact ⟨fun h => absurd hstart (by simp [h]),
                 fun _ hf2 => absurd hfin (by simp [hf2]),
                 fun _ => Or.inl hfin⟩
      | false =>
          exact ⟨fun h => absurd hstart (by simp [h]),
                 fun _ hf2 => absurd hfin (by simp [hf2]),
                 fun _ => Or.inr ⟨rfl, hstart, rfl, rfl⟩⟩

theorem C1_quiz_flow_amended_w :
    (startQuiz 0 (initState 1 1 [1])).quizStarted = true ∧
    (startQuiz 0 (initState 1 1 [1])).quizFinished = false := by
  have h := C1_quiz_flow_amended 1 1 [1] (initState 1 1 [1])
      (startQuiz 0 (initState 1 1 [1])) Relation.ReflTransGen.refl (Step.start 0 rfl rfl)
  exact ⟨(h.1 rfl).2.1, (h.1 rfl).2.2⟩

/-- C2: the countdown starts at timeLimit times 60 seconds; any tick
taken with at least one second left decreases timeLeft by exactly one;
a tick taken in the last second sets timeLeft to 0 and invokes
finishQuiz (quizFinished becomes true with a submission pending); and
timeLeft is never negative in any reachable state. -/
theorem C2_countdown_timer (quizId timeLimit : Nat) (qs : List Nat) :
    (initState quizId timeLimit qs).timeLeft = (timeLimit : Int) * 60 ∧
    (∀ (s : TQState) (now : Nat), 1 ≤ s.timeLeft →
       (tick now s).timeLeft = s.timeLeft - 1) ∧
    (∀ (s : TQState) (now : Nat), s.timeLeft ≤ 1 →
       (tick now s).timeLeft = 0 ∧ (tick now s).quizFinished = true ∧
       (tick now s).pending ≠ none) ∧
    (∀ s : TQState, ReachableTQ quizId timeLimit qs s → 0 ≤ s.timeLeft) := by
  refine ⟨rfl, ?_, ?_, ?_⟩
  · intro s now h1
    unfold tick
    split
    · next hle =>
        show (0 : Int) = s.timeLeft - 1
        omega
    · next hgt => rfl
  · intro s now hle
    unfold tick
    rw [if_pos hle]
    exact ⟨rfl, rfl, by simp [finishBegin]⟩
  · intro s hr
    exact (reachable_inv hr).2.2.1

theorem C2_countdown_timer_w :
    (tick 0 (startQuiz 0 (initState 1 1 [1]))).timeLeft =
      (startQuiz 0 (initState 1 1 [1])).timeLeft - 1 ∧
    0 ≤ (initState 1 1 [1]).timeLeft :=
  ⟨(C2_countdown_timer 1 1 [1]).2.1 _ 0 (by decide),
   (C2_countdown_timer 1 1 [1]).2.2.2 _ Relation.ReflTransGen.refl⟩

/-- C3: the submission carries exactly the quiz id, the answers whose
selected_option is not -1, and the elapsed time floor((now - start) /
1000) seconds formatted as zero-padded HH:MM:SS (0 seconds without a
recorded start time); a successful resolution navigates to the results
page of the returned score id. -/
theorem C3_submit_payload (s : TQState) (now st sc : Nat) :
    (finishPayload s now).quiz_id = s.quizId ∧
    (∀ a : Answer, a ∈ (finishPayload s now).answers ↔
       a ∈ s.answers ∧ a.selected_option ≠ -1) ∧
    (s.startTime = some st →
       (finishPayload s now).time_taken = formatHHMMSS ((now - st) / 1000)) ∧
    (s.startTime = none → (finishPayload s now).time_taken = formatHHMMSS 0) ∧
    formatHHMMSS 0 = "00:00:00" ∧
    (finishBegin now s).pending = some (finishPayload s now) ∧
    (finishResolve true sc s).navigated = some ("/results/" ++ toString sc) := by
  refine ⟨rfl, ?_, ?_, ?_, by decide, rfl, rfl⟩
  · intro a
    simp [finishPayload, List.mem_filter, bne_iff_ne]
  · intro h
    simp [finishPayload, timeTakenSeconds, h]
  · intro h
    simp [finishPayload, timeTakenSeconds, h]

theorem C3_submit_payload_w :
    (finishPayload (startQuiz 5 (initState 1 1 [1])) 3005).time_taken =
      formatHHMMSS ((3005 - 5) / 1000) :=
  (C3_submit_payload (startQuiz 5 (initState 1 1 [1])) 3005 5 0).2.2.1 rfl

/-- C8: in every reachable state over a non-empty question list the
current question index stays within bounds, goToNextQuestion increments
only below the last question and otherwise opens the confirmation
modal, and goToPreviousQuestion decrements only above 0. -/
theorem C8_question_index_bounds (quizId timeLimit : Nat) (qs : List Nat) (s : TQState)
    (hne : qs ≠ []) (hr : ReachableTQ quizId timeLimit qs s) :
    s.currentQuestionIndex < s.questions.length ∧
    (s.currentQuestionIndex < s.questions.length - 1 →
       (goToNextQuestion s).currentQuestionIndex = s.currentQuestionIndex + 1) ∧
    (¬ s.currentQuestionIndex < s.questions.length - 1 →
       (goToNextQuestion s).currentQuestionIndex = s.currentQuestionIndex ∧
       (goToNextQuestion s).showConfirmModal = true) ∧
    (0 < s.currentQuestionIndex →
       (goToPreviousQuestion s).currentQuestionIndex = s.currentQuestionIndex - 1) ∧
    (s.currentQuestionIndex = 0 → goToPreviousQuestion s = s) := by
  obtain ⟨hq, hidx, -, -, -⟩ := reachable_inv hr
  refine ⟨?_, ?_, ?_, ?_, ?_⟩
  · rw [hq]; exact hidx hne
  · intro h; unfold goToNextQuestion; rw [if_pos h]
  · intro h; unfold goToNextQuestion; rw [if_neg h]; exact ⟨rfl, rfl⟩
  · intro h; unfold goToPreviousQuestion; rw [if_pos h]
  · intro h; unfold goToPreviousQuestion; rw [if_neg (by omega)]

theorem C8_question_index_bounds_w :
    (initState 1 1 [1]).currentQuestionIndex < (initState 1 1 [1]).questions.length :=
  (C8_question_index_bounds 1 1 [1] (initState 1 1 [1]) (by decide)
    Relation.ReflTransGen.refl).1

/-- C9: a failed submitQuiz resolution sets the error message, resets
quizFinished to false while quizStarted is unchanged, does not
navigate, and leaves the answers array exactly as it was. -/
theorem C9_submit_failure (s : TQState) (sc : Nat) :
    (finishResolve false sc s).error = some submitErrMsg ∧
    (finishResolve false sc s).quizFinished = false ∧
    (finishResolve false sc s).quizStarted = s.quizStarted ∧
    (finishResolve false sc s).navigated = s.navigated ∧
    (finishResolve false sc s).answers = s.answers :=
  ⟨rfl, rfl, rfl, rfl, rfl⟩

/-- C5: isAdmin returns true exactly when a logged-in user exists whose
role is admin (so false with no user), and every route of the App
router whose path lies under /admin is wrapped in the AdminRoute
guard. -/
theorem C5_admin_gate :
    (∀ a : AuthState, isAdmin a = true ↔ ∃ u, a.user = some u ∧ u.role = Role.admin) ∧
    (∀ a : AuthState, a.user = none → isAdmin a = false) ∧
    (∀ r ∈ appRoutes, pathUnderAdmin r.path = true → r.guard = RouteGuard.adminOnly) := by
  refine ⟨?_, ?_, by decide⟩
  · intro a
    constructor
    · intro h
      cases ha : a.user with
      | none => simp [isAdmin, ha] at h
      | some u =>
          simp only [isAdmin, ha, beq_iff_eq] at h
          exact ⟨u, rfl, h⟩
    · rintro ⟨u, hu, hr⟩
      simp [isAdmin, hu, hr]
  · intro a ha
    simp [isAdmin, ha]

theorem C5_admin_gate_w :
    isAdmin ⟨some ⟨1, "admin", Role.admin⟩, some "t", none⟩ = true ∧
    isAdmin ⟨none, none, none⟩ = false ∧
    (RouteEntry.mk "/admin/users" RouteGuard.adminOnly).guard = RouteGuard.adminOnly :=
  ⟨(C5_admin_gate.1 ⟨some ⟨1, "admin", Role.admin⟩, some "t", none⟩).mpr ⟨_, rfl, rfl⟩,
   C5_admin_gate.2.1 ⟨none, none, none⟩ rfl,
   C5_admin_gate.2.2 ⟨"/admin/users", RouteGuard.adminOnly⟩ (by decide) (by decide)⟩

/-- C6: a successful login stores the returned token under the
localStorage key token and sets user and token in the context; logout
removes that key and nulls both, after which isAdmin returns false. -/
theorem C6_token_auth (c : ClientState) (tok : String) (u : AuthUser) :
    getItem "token" (loginSuccess tok u c).storage = some tok ∧
    (loginSuccess tok u c).auth.user = some u ∧
    (loginSuccess tok u c).auth.token = some tok ∧
    getItem "token" (logout c).storage = none ∧
    (logout c).auth.user = none ∧
    (logout c).auth.token = none ∧
    isAdmin (logout c).auth = false := by
  refine ⟨?_, rfl, rfl, ?_, rfl, rfl, rfl⟩
  · rw [loginSuccess]
    show getItem "token" (setItem "token" tok c.storage) = some tok
    rw [getItem, setItem, List.find?_cons_of_pos _ (by simp)]
    rfl
  · rw [logout]
    show getItem "token" (removeItem "token" c.storage) = none
    rw [getItem, removeItem, find?_filter_ne]
    rfl

theorem jsOrStr_of_falsy (v : Option String) (d : String) (h : truthyStr v = false) :
    jsOrStr v d = d := by
  cases v with
  | none => rfl
  | some s =>
      have hs : s = "" := by simpa [truthyStr] using h
      simp [jsOrStr, hs]

theorem jsOrNat_of_falsy (v : Option Nat) (d : Nat) (h : truthyNat v = false) :
    jsOrNat v d = d := by
  cases v with
  | none => rfl
  | some n =>
      have hn : n = 0 := by simpa [truthyNat] using h
      simp [jsOrNat, hn]

theorem jsOrStr_eq_empty (v : Option String) (d : String) (h : jsOrStr v d = "") :
    d = "" := by
  cases v with
  | none => exact h
  | some s =>
      by_cases hs : s = ""
      · simpa [jsOrStr, hs] using h
      · simp [jsOrStr, hs] at h

/-- C4: createQuiz answers 404 when the chapter does not exist, 400
when a quiz of the same title already exists in that chapter, and
otherwise inserts the quiz (time_duration defaulting to 00:30 when
timeLimit is absent) and answers 201; no quiz is created in either
error case. -/
theorem C4_createQuiz (now : Nat) (db : QuizDB) (b : CreateQuizBody) :
    (findChapterByPk db b.chapterId = none →
       (createQuiz now db b).1.status = 404 ∧ (createQuiz now db b).2 = db) ∧
    (findChapterByPk db b.chapterId ≠ none →
     findQuizByTitleInChapter db b.title b.chapterId ≠ none →
       (createQuiz now db b).1.status = 400 ∧ (createQuiz now db b).2 = db) ∧
    (findChapterByPk db b.chapterId ≠ none →
     findQuizByTitleInChapter db b.title b.chapterId = none →
       (createQuiz now db b).1.status = 201 ∧
       (createQuiz now db b).2.quizzes =
         db.quizzes ++ [{ id := db.nextQuizId, name := b.title, remarks := b.description,
                          chapter_id := b.chapterId, date_of_quiz := now,
                          time_duration := jsOrStr b.timeLimit "00:30" }] ∧
       (b.timeLimit = none → jsOrStr b.timeLimit "00:30" = "00:30")) := by
  cases hc : findChapterByPk db b.chapterId with
  | none =>
      refine ⟨fun _ => ?_, fun hne => absurd rfl hne, fun hne => absurd rfl hne⟩
      simp [createQuiz, hc]
  | some ch =>
      cases hq : findQuizByTitleInChapter db b.title b.chapterId with
      | some q0 =>
          refine ⟨fun h => Option.noConfusion h, fun _ _ => ?_,
                  fun _ h => Option.noConfusion h⟩
          simp [createQuiz, hc, hq]
      | none =>
          refine ⟨fun h => Option.noConfusion h, fun _ hne => absurd rfl hne,
                  fun _ _ => ⟨?_, ?_, ?_⟩⟩
          · simp [createQuiz, hc, hq]
          · simp [createQuiz, hc, hq]
          · intro ht
            simp [jsOrStr, ht]

theorem C4_createQuiz_w :
    (createQuiz 0 ⟨[⟨1, "c"⟩], [], 1⟩ ⟨"t", "d", 1, none⟩).1.status = 201 :=
  ((C4_createQuiz 0 ⟨[⟨1, "c"⟩], [], 1⟩ ⟨"t", "d", 1, none⟩).2.2 (by decide) (by decide)).1

/-- C7: updateQuiz and deleteQuiz answer 404 with the message Quiz not
found exactly when no quiz with the id exists, and then leave the
database unchanged; updateQuiz also answers 404 without modifying
anything when a truthy new chapterId names no existing chapter. -/
theorem C7_update_delete_notfound (db : QuizDB) (qid : Nat) (b : UpdateQuizBody) :
    ((updateQuiz db qid b).1 = ⟨404, "Quiz not found"⟩ ↔ findQuizByPk db qid = none) ∧
    (findQuizByPk db qid = none → (updateQuiz db qid b).2 = db) ∧
    ((deleteQuiz db qid).1 = ⟨404, "Quiz not found"⟩ ↔ findQuizByPk db qid = none) ∧
    (findQuizByPk db qid = none → (deleteQuiz db qid).2 = db) ∧
    (∀ quiz, findQuizByPk db qid = some quiz → wantsNewChapter b quiz = true →
       findChapterByPk db (b.chapterId.getD 0) = none →
       (updateQuiz db qid b).1 = ⟨404, "Chapter not found"⟩ ∧
       (updateQuiz db qid b).2 = db) := by
  cases hq : findQuizByPk db qid with
  | none =>
      refine ⟨?_, fun _ => ?_, ?_, fun _ => ?_, fun quiz hsome => Option.noConfusion hsome⟩
      · simp [updateQuiz, hq]
      · simp [updateQuiz, hq]
      · simp [deleteQuiz, hq]
      · simp [deleteQuiz, hq]
  | some quiz0 =>
      refine ⟨⟨?_, fun h => Option.noConfusion h⟩, fun h => Option.noConfusion h,
              ⟨?_, fun h => Option.noConfusion h⟩, fun h => Option.noConfusion h,
              fun quiz hsome hw hch => ?_⟩
      · intro h
        by_cases hw : wantsNewChapter b quiz0 = true ∧
            findChapterByPk db (b.chapterId.getD 0) = none
        · simp only [updateQuiz, hq, if_pos hw] at h
          exact absurd h (by decide)
        · simp only [updateQuiz, hq, if_neg hw] at h
          exact absurd h (by decide)
      · intro h
        simp only [deleteQuiz, hq] at h
        exact absurd h (by decide)
      · obtain rfl : quiz0 = quiz := by injection hsome
        simp [updateQuiz, hq, hw, hch]

theorem C7_update_delete_notfound_w :
    (updateQuiz ⟨[], [], 0⟩ 1 ⟨none, none, none, none⟩).2 = ⟨[], [], 0⟩ ∧
    (deleteQuiz ⟨[], [], 0⟩ 1).1 = ⟨404, "Quiz not found"⟩ :=
  ⟨(C7_update_delete_notfound ⟨[], [], 0⟩ 1 ⟨none, none, none, none⟩).2.1 rfl,
   (C7_update_delete_notfound ⟨[], [], 0⟩ 1 ⟨none, none, none, none⟩).2.2.1.mpr rfl⟩

/-- C10: every falsy request field of updateQuiz (absent, empty string,
zero) leaves the corresponding stored column at its prior value, so no
update can set name, remarks or time_duration to empty unless they
already were; on success the stored row is exactly the field merge of
the prior row. -/
theorem C10_update_falsy_fields (db : QuizDB) (qid : Nat) (b : UpdateQuizBody)
    (q quiz : QuizRec) :
    (truthyStr b.title = false → (updateMergeQuiz q b).name = q.name) ∧
    (truthyStr b.description = false → (updateMergeQuiz q b).remarks = q.remarks) ∧
    (truthyNat b.chapterId = false → (updateMergeQuiz q b).chapter_id = q.chapter_id) ∧
    (truthyStr b.timeLimit = false → (updateMergeQuiz q b).time_duration = q.time_duration) ∧
    ((updateMergeQuiz q b).name = "" → q.name = "") ∧
    ((updateMergeQuiz q b).remarks = "" → q.remarks = "") ∧
    ((updateMergeQuiz q b).time_duration = "" → q.time_duration = "") ∧
    (findQuizByPk db qid = some quiz → (updateQuiz db qid b).1.status = 200 →
       findQuizByPk (updateQuiz db qid b).2 qid = some (updateMergeQuiz quiz b)) := by
  refine ⟨fun h => jsOrStr_of_falsy _ _ h, fun h => jsOrStr_of_falsy _ _ h,
          fun h => jsOrNat_of_falsy _ _ h, fun h => jsOrStr_of_falsy _ _ h,
          fun h => jsOrStr_eq_empty _ _ h, fun h => jsOrStr_eq_empty _ _ h,
          fun h => jsOrStr_eq_empty _ _ h, fun hfind hstat => ?_⟩
  simp only [updateQuiz, hfind] at hstat ⊢
  by_cases hw : wantsNewChapter b quiz = true ∧
      findChapterByPk db (b.chapterId.getD 0) = none
  · simp only [if_pos hw] at hstat
    exact absurd hstat (by decide)
  · rw [if_neg hw]
    exact find?_map_update (fun q : QuizRec => q.id) qid (fun q => updateMergeQuiz q b)
      (fun _ => rfl) db.quizzes quiz hfind

theorem C10_update_falsy_fields_w :
    (updateMergeQuiz ⟨1, "n", "r", 1, 0, "00:30"⟩ ⟨none, none, none, none⟩).name = "n" ∧
    findQuizByPk
        (updateQuiz ⟨[], [⟨1, "n", "r", 1, 0, "00:30"⟩], 2⟩ 1 ⟨none, none, none, none⟩).2 1
      = some (updateMergeQuiz ⟨1, "n", "r", 1, 0, "00:30"⟩ ⟨none, none, none, none⟩) :=
  ⟨(C10_update_falsy_fields ⟨[], [], 0⟩ 1 ⟨none, none, none, none⟩
      ⟨1, "n", "r", 1, 0, "00:30"⟩ ⟨1, "n", "r", 1, 0, "00:30"⟩).1 rfl,
   (C10_update_falsy_fields ⟨[], [⟨1, "n", "r", 1, 0, "00:30"⟩], 2⟩ 1 ⟨none, none, none, none⟩
      ⟨1, "n", "r", 1, 0, "00:30"⟩ ⟨1, "n", "r", 1, 0, "00:30"⟩).2.2.2.2.2.2.2 rfl rfl⟩
